import Mathlib

/-!
Shallow embedding of `parse_jpeg_headers` from `main.py` of the JPEG
repository, together with theorems settling the specification claims
about it.  The parser walks a byte stream: a 2-byte signature check,
then a loop reading 2-byte markers, a big-endian 16-bit length and a
payload of `length - 2` bytes per segment, accumulating entries into a
Python dict keyed by a label string.
-/

namespace JPEG

/-- One parsed header entry, mirroring the value dictionaries stored in
`headers` by `parse_jpeg_headers`: every entry carries a `value` and a
`description` string; the `APP0` entry additionally stores the raw payload
bytes under `data`; the `SOF0` entry additionally stores `precision`,
`height` and `width`. -/
structure MarkerInfo where
  value : String
  description : String
  data : Option (List Nat) := none
  precision : Option Nat := none
  height : Option Nat := none
  width : Option Nat := none
deriving Repr, DecidableEq

/-- The `headers` dictionary.  A Python `dict` preserves insertion order,
and assignment to an existing key updates the value in place, so it is
modelled as an association list with `dictInsert` playing `headers[k] = v`. -/
abbrev Headers := List (String × MarkerInfo)

/-- Python dict assignment `d[k] = v`: when the key is present its value is
updated in place (the original insertion position is kept), otherwise the
pair is appended at the end. -/
def dictInsert (k : String) (v : MarkerInfo) (d : Headers) : Headers :=
  if d.any (fun p => p.1 == k) then
    d.map (fun p => if p.1 = k then (k, v) else p)
  else d ++ [(k, v)]

/-- Uppercase hexadecimal digit, as produced by Python's `X` format. -/
def hexDigit (n : Nat) : Char :=
  if n < 10 then Char.ofNat (0x30 + n) else Char.ofNat (0x37 + n)

/-- Python's `{n:02X}` format for a byte value (`0 ≤ n < 256`). -/
def toHex2 (n : Nat) : String :=
  String.mk [hexDigit (n / 16), hexDigit (n % 16)]

/-- The ways `parse_jpeg_headers` fails: the explicit `ValueError` it
raises on a bad signature, the `IndexError` raised by `marker[1]` when
`f.read(2)` returned a single byte `0xFF`, and the `struct.error` raised by
`struct.unpack` on a buffer shorter than the format requires. -/
inductive ParseError where
  | valueError (msg : String)
  | indexError
  | structError
deriving Repr, DecidableEq

/-- The fixed record stored under `SOI`. -/
def soiInfo : MarkerInfo :=
  { value := "0xFFD8", description := "Start of Image" }

/-- The fixed record stored under `EOI`. -/
def eoiInfo : MarkerInfo :=
  { value := "0xFFD9", description := "End of Image" }

/-- The `# Interpret common markers` part of the loop body: stores one
entry keyed by the marker's label, or fails the way `struct.unpack('>BHH',
data[:5])` does when the `SOF0` payload holds fewer than 5 bytes.  `len` is
the declared 16-bit length and `data` the bytes `f.read(length - 2)`
returned. -/
def interpretMarker (marker_type len : Nat) (data : List Nat) (hs : Headers) :
    Except ParseError Headers :=
  if marker_type = 0xE0 then
    .ok (dictInsert "APP0"
      { value := "0xFFE0, length=" ++ toString len,
        description := "JFIF Application Segment", data := some data } hs)
  else if marker_type = 0xC0 then
    if data.length < 5 then .error .structError
    else
      .ok (dictInsert "SOF0"
        { value := "0xFFC0, length=" ++ toString len,
          description := "Start of Frame (Baseline DCT)",
          precision := some (data.getD 0 0),
          height := some (256 * data.getD 1 0 + data.getD 2 0),
          width := some (256 * data.getD 3 0 + data.getD 4 0) } hs)
  else if marker_type = 0xC4 then
    .ok (dictInsert "DHT"
      { value := "0xFFC4, length=" ++ toString len,
        description := "Define Huffman Table" } hs)
  else if marker_type = 0xDA then
    .ok (dictInsert "SOS"
      { value := "0xFFDA, length=" ++ toString len,
        description := "Start of Scan" } hs)
  else
    .ok (dictInsert ("Marker 0xFF" ++ toHex2 marker_type)
      { value := "0xFF" ++ toHex2 marker_type ++ ", length=" ++ toString len,
        description := "Unknown or other marker" } hs)

/-- The `while True` loop of `parse_jpeg_headers`, over the bytes not yet
consumed.  `f.read(2)` on fewer than 2 remaining bytes returns whatever is
left, so: an empty remainder breaks the loop; a single remaining byte
breaks when it is not `0xFF` and raises `IndexError` at `marker[1]` when it
is; `struct.unpack('>H', f.read(2))` raises `struct.error` when fewer than
2 bytes remain for the length field; `f.read(length - 2)` reads all
remaining bytes when `length < 2` (a negative size means read-to-EOF in
Python) and at most the remaining bytes otherwise, without error. -/
def parseLoop (rem : List Nat) (hs : Headers) : Except ParseError Headers :=
  match rem with
  | [] => .ok hs
  | [b] => if b = 0xFF then .error .indexError else .ok hs
  | m0 :: m1 :: rest =>
    if m0 ≠ 0xFF then .ok hs
    else if m1 = 0xD9 then .ok (dictInsert "EOI" eoiInfo hs)
    else
      match rest with
      | l0 :: l1 :: rest2 =>
        let len := 256 * l0 + l1
        if len < 2 then
          match interpretMarker m1 len rest2 hs with
          | .error e => .error e
          | .ok hs2 => parseLoop [] hs2
        else
          match interpretMarker m1 len (rest2.take (len - 2)) hs with
          | .error e => .error e
          | .ok hs2 => parseLoop (rest2.drop (len - 2)) hs2
      | _ => .error .structError
termination_by rem.length
decreasing_by
  · simp
  · simp [List.length_drop]
    omega

/-- `parse_jpeg_headers` from `main.py`, as a function of the file's bytes:
check the 2-byte signature, record `SOI`, then run the marker loop on the
remaining bytes. -/
def parse_jpeg_headers (input : List Nat) : Except ParseError Headers :=
  if input.take 2 = [0xFF, 0xD8] then
    parseLoop (input.drop 2) (dictInsert "SOI" soiInfo [])
  else .error (.valueError "Not a valid JPEG file")

/-- The ordered list of labels (dict keys) of a header set. -/
def labelsOf (hs : Headers) : List String := hs.map Prod.fst

/-- Loop invariant for the accumulated headers: the first label is `SOI`,
`SOI` occurs exactly once, and `EOI` has not been inserted yet. -/
def soiFirstInv (hs : Headers) : Prop :=
  (labelsOf hs).head? = some "SOI" ∧ (labelsOf hs).count "SOI" = 1 ∧
    (labelsOf hs).count "EOI" = 0

/-- C5: parsing the exact stream `FF D8 FF D9` succeeds with exactly two
entries, `SOI` (Start of Image) then `EOI` (End of Image), carrying no
other entries or fields. -/
theorem minimal_stream_two_entries :
    parse_jpeg_headers [0xFF, 0xD8, 0xFF, 0xD9] =
      .ok [("SOI", soiInfo), ("EOI", eoiInfo)] := by
  simp [parse_jpeg_headers, parseLoop, dictInsert, soiInfo, eoiInfo]

/-- C1: on a stream with two `APP0` segments (payloads `0x41` and `0x42`),
the label-keyed dict keeps a single `APP0` entry holding only the second
payload — the first segment is silently overwritten, contradicting the
claim that both survive as distinct entries. -/
theorem duplicate_app0_overwritten :
    parse_jpeg_headers
        [0xFF, 0xD8, 0xFF, 0xE0, 0x00, 0x03, 0x41, 0xFF, 0xE0, 0x00, 0x03, 0x42] =
      .ok [("SOI", soiInfo),
           ("APP0", { value := "0xFFE0, length=3",
                      description := "JFIF Application Segment",
                      data := some [0x42] })] := by
  simp [parse_jpeg_headers, parseLoop, interpretMarker, dictInsert, soiInfo]
  rfl

/-- C2: a segment declaring length `0x0000` does not fail: `f.read(0 - 2)`
is a negative-size Python read, which returns every remaining byte, so the
parse succeeds with the whole tail stored as the `APP0` payload instead of
raising any `InvalidLength`-style error. -/
theorem zero_length_reads_to_eof :
    parse_jpeg_headers [0xFF, 0xD8, 0xFF, 0xE0, 0x00, 0x00, 0x41, 0x42] =
      .ok [("SOI", soiInfo),
           ("APP0", { value := "0xFFE0, length=0",
                      description := "JFIF Application Segment",
                      data := some [0x41, 0x42] })] := by
  simp [parse_jpeg_headers, parseLoop, interpretMarker, dictInsert, soiInfo]
  rfl

/-- C3: a segment declaring length `0x000A` (8 payload bytes) with only 2
bytes remaining does not fail: `f.read(8)` silently returns the 2 available
bytes and the parse succeeds with the partial payload stored, instead of any
`Truncated`-style error. -/
theorem truncated_payload_kept_partial :
    parse_jpeg_headers [0xFF, 0xD8, 0xFF, 0xE0, 0x00, 0x0A, 0x01, 0x02] =
      .ok [("SOI", soiInfo),
           ("APP0", { value := "0xFFE0, length=10",
                      description := "JFIF Application Segment",
                      data := some [0x01, 0x02] })] := by
  simp [parse_jpeg_headers, parseLoop, interpretMarker, dictInsert, soiInfo]
  rfl

/-- C4 counterexample: on the empty stream the parse does fail at the
signature check, but the `ValueError` message is `"Not a valid JPEG file"`
with a capital `N`, not the claimed `"not a valid JPEG file"`. -/
theorem signature_message_capitalized :
    parse_jpeg_headers [] = .error (.valueError "Not a valid JPEG file") ∧
      ("Not a valid JPEG file" : String) ≠ "not a valid JPEG file" := by
  constructor
  · simp [parse_jpeg_headers]
  · decide

/-- C4 (amended): every stream whose first two bytes are not `FF D8`
(short and empty streams included, since a short read returns fewer bytes)
is rejected with the `ValueError` carrying the message
`"Not a valid JPEG file"`, and no header set is produced. -/
theorem invalid_signature_rejected (input : List Nat)
    (h : input.take 2 ≠ [0xFF, 0xD8]) :
    parse_jpeg_headers input = .error (.valueError "Not a valid JPEG file") := by
  simp [parse_jpeg_headers, h]

/-- Witness for `invalid_signature_rejected` at the empty stream. -/
theorem invalid_signature_rejected_witness :
    ([] : List Nat).take 2 ≠ [0xFF, 0xD8] ∧
      parse_jpeg_headers [] = .error (.valueError "Not a valid JPEG file") :=
  ⟨by decide, invalid_signature_rejected [] (by decide)⟩

/-- C6: for a well-formed baseline frame header segment (`FF C0`, declared
length `0x0008`, payload = precision byte, 2-byte big-endian height,
2-byte big-endian width, one trailing byte), the `SOF0` record reproduces
precision, height and width exactly, for all dimensions in `[1, 65535]`. -/
theorem sof0_dimensions_exact (p h w t : Nat)
    (hh1 : 1 ≤ h) (hh2 : h ≤ 65535) (hw1 : 1 ≤ w) (hw2 : w ≤ 65535) :
    parse_jpeg_headers
        [0xFF, 0xD8, 0xFF, 0xC0, 0x00, 0x08,
         p, h / 256, h % 256, w / 256, w % 256, t] =
      .ok [("SOI", soiInfo),
           ("SOF0", { value := "0xFFC0, length=8",
                      description := "Start of Frame (Baseline DCT)",
                      precision := some p,
                      height := some h, width := some w })] := by
  simp [parse_jpeg_headers, parseLoop, interpretMarker, dictInsert, soiInfo]
  refine ⟨by rfl, by omega, by omega⟩

/-- Witness for `sof0_dimensions_exact` at precision 8, height 300,
width 200. -/
theorem sof0_dimensions_exact_witness :
    (1 ≤ 300 ∧ 300 ≤ 65535 ∧ 1 ≤ 200 ∧ 200 ≤ 65535) ∧
      parse_jpeg_headers
          [0xFF, 0xD8, 0xFF, 0xC0, 0x00, 0x08,
           8, 300 / 256, 300 % 256, 200 / 256, 200 % 256, 0] =
        .ok [("SOI", soiInfo),
             ("SOF0", { value := "0xFFC0, length=8",
                        description := "Start of Frame (Baseline DCT)",
                        precision := some 8,
                        height := some 300, width := some 200 })] :=
  ⟨by decide,
   sof0_dimensions_exact 8 300 200 0 (by decide) (by decide) (by decide) (by decide)⟩

/-- C7: when zero bytes remain at the point the loop reads the next 2-byte
marker prefix, the loop ends normally and returns whatever headers were
accumulated — no error, even though no `EOI` marker was seen; in
particular the stream `FF D8` alone parses to just the `SOI` entry. -/
theorem loop_end_of_stream_ok :
    (∀ hs : Headers, parseLoop [] hs = .ok hs) ∧
      parse_jpeg_headers [0xFF, 0xD8] = .ok [("SOI", soiInfo)] := by
  constructor
  · intro hs
    simp [parseLoop]
  · simp [parse_jpeg_headers, parseLoop, dictInsert]

/-- C8: the parse is a pure function of the input bytes — two runs on the
same byte stream return the same result (same error, or same entries in
the same order). -/
theorem parse_deterministic (b1 b2 : List Nat) (h : b1 = b2) :
    parse_jpeg_headers b1 = parse_jpeg_headers b2 := by rw [h]

/-- Witness for `parse_deterministic` on the minimal valid stream. -/
theorem parse_deterministic_witness :
    ([0xFF, 0xD8] : List Nat) = [0xFF, 0xD8] ∧
      parse_jpeg_headers [0xFF, 0xD8] = parse_jpeg_headers [0xFF, 0xD8] :=
  ⟨rfl, parse_deterministic [0xFF, 0xD8] [0xFF, 0xD8] rfl⟩

/-- C10: when exactly one byte remains at the point the loop reads the
next marker and that byte is `0xFF`, `marker[1]` indexes past the end of
the 1-byte read and raises `IndexError` — not a normal stop and none of
the parser's own error kinds; `FF D8 FF` is such a stream. -/
theorem lone_ff_marker_index_error :
    (∀ hs : Headers, parseLoop [0xFF] hs = .error .indexError) ∧
      parse_jpeg_headers [0xFF, 0xD8, 0xFF] = .error .indexError := by
  constructor
  · intro hs
    simp [parseLoop]
  · simp [parse_jpeg_headers, parseLoop, dictInsert]

theorem mem_labelsOf_iff_any (k : String) (d : Headers) :
    k ∈ labelsOf d ↔ d.any (fun p => p.1 == k) = true := by
  rw [labelsOf, List.any_eq_true, List.mem_map]
  constructor
  · rintro ⟨p, hp, hpe⟩
    exact ⟨p, hp, by simp [hpe]⟩
  · rintro ⟨p, hp, hpe⟩
    exact ⟨p, hp, by simpa using hpe⟩

theorem labelsOf_dictInsert_mem (k : String) (v : MarkerInfo) (d : Headers)
    (h : k ∈ labelsOf d) : labelsOf (dictInsert k v d) = labelsOf d := by
  rw [dictInsert, if_pos ((mem_labelsOf_iff_any k d).mp h)]
  simp only [labelsOf, List.map_map]
  refine List.map_congr_left ?_
  intro p hp
  by_cases hpk : p.1 = k
  · simp [hpk]
  · simp [hpk]

theorem labelsOf_dictInsert_not_mem (k : String) (v : MarkerInfo) (d : Headers)
    (h : k ∉ labelsOf d) : labelsOf (dictInsert k v d) = labelsOf d ++ [k] := by
  rw [dictInsert, if_neg (fun hc => h ((mem_labelsOf_iff_any k d).mpr hc))]
  simp [labelsOf]

theorem marker_label_ne (s : String) :
    ("Marker 0xFF" ++ s) ≠ "SOI" ∧ ("Marker 0xFF" ++ s) ≠ "EOI" := by
  have hM : ("Marker 0xFF" : String).length = 11 := rfl
  have hS : ("SOI" : String).length = 3 := rfl
  have hE : ("EOI" : String).length = 3 := rfl
  constructor <;> intro h <;> have hl := congrArg String.length h
  · rw [String.length_append, hM, hS] at hl
    omega
  · rw [String.length_append, hM, hE] at hl
    omega

theorem interpretMarker_ok_shape (m len : Nat) (data : List Nat)
    (hs hs' : Headers) (h : interpretMarker m len data hs = .ok hs') :
    ∃ k v, k ≠ "SOI" ∧ k ≠ "EOI" ∧ hs' = dictInsert k v hs := by
  unfold interpretMarker at h
  split_ifs at h with h1 h2 h3 h4 h5 <;>
    first
      | exact ⟨"APP0", _, by decide, by decide, (Except.ok.inj h).symm⟩
      | exact ⟨"SOF0", _, by decide, by decide, (Except.ok.inj h).symm⟩
      | exact ⟨"DHT", _, by decide, by decide, (Except.ok.inj h).symm⟩
      | exact ⟨"SOS", _, by decide, by decide, (Except.ok.inj h).symm⟩
      | exact ⟨"Marker 0xFF" ++ toHex2 m, _, (marker_label_ne _).1,
          (marker_label_ne _).2, (Except.ok.inj h).symm⟩

theorem soiFirstInv_dictInsert (k : String) (v : MarkerInfo) (hs : Headers)
    (hk1 : k ≠ "SOI") (hk2 : k ≠ "EOI") (h : soiFirstInv hs) :
    soiFirstInv (dictInsert k v hs) := by
  by_cases hmem : k ∈ labelsOf hs
  · rw [soiFirstInv, labelsOf_dictInsert_mem k v hs hmem]
    exact h
  · obtain ⟨h1, h2, h3⟩ := h
    rw [soiFirstInv, labelsOf_dictInsert_not_mem k v hs hmem]
    refine ⟨?_, ?_, ?_⟩
    · cases hl : labelsOf hs with
      | nil => rw [hl] at h1; cases h1
      | cons a tl => rw [hl] at h1; simp only [List.head?_cons] at h1; simp [h1]
    · rw [List.count_append, h2, List.count_singleton']
      simp [hk1]
    · rw [List.count_append, h3, List.count_singleton']
      simp [hk2]

theorem soiFirstInv_final (hs : Headers) (h : soiFirstInv hs) :
    (labelsOf hs).count "SOI" = 1 ∧ (labelsOf hs).head? = some "SOI" ∧
      (labelsOf hs).count "EOI" ≤ 1 ∧
      ("EOI" ∈ labelsOf hs → (labelsOf hs).getLast? = some "EOI") := by
  obtain ⟨h1, h2, h3⟩ := h
  exact ⟨h2, h1, by omega, fun hmem => absurd hmem (List.count_eq_zero.mp h3)⟩

theorem soiFirstInv_final_eoi (hs : Headers) (h : soiFirstInv hs) :
    (labelsOf (dictInsert "EOI" eoiInfo hs)).count "SOI" = 1 ∧
      (labelsOf (dictInsert "EOI" eoiInfo hs)).head? = some "SOI" ∧
      (labelsOf (dictInsert "EOI" eoiInfo hs)).count "EOI" ≤ 1 ∧
      ("EOI" ∈ labelsOf (dictInsert "EOI" eoiInfo hs) →
        (labelsOf (dictInsert "EOI" eoiInfo hs)).getLast? = some "EOI") := by
  obtain ⟨h1, h2, h3⟩ := h
  have hmem : "EOI" ∉ labelsOf hs := List.count_eq_zero.mp h3
  rw [labelsOf_dictInsert_not_mem "EOI" eoiInfo hs hmem]
  refine ⟨?_, ?_, ?_, fun _ => ?_⟩
  · rw [List.count_append, h2, List.count_singleton']
    simp
  · cases hl : labelsOf hs with
    | nil => rw [hl] at h1; cases h1
    | cons a tl => rw [hl] at h1; simp only [List.head?_cons] at h1; simp [h1]
  · rw [List.count_append, h3, List.count_singleton']
    simp
  · simp

theorem parseLoop_ok_final :
    ∀ (n : Nat) (rem : List Nat) (hs0 hs : Headers), rem.length ≤ n →
      soiFirstInv hs0 → parseLoop rem hs0 = .ok hs →
      (labelsOf hs).count "SOI" = 1 ∧ (labelsOf hs).head? = some "SOI" ∧
        (labelsOf hs).count "EOI" ≤ 1 ∧
        ("EOI" ∈ labelsOf hs → (labelsOf hs).getLast? = some "EOI") := by
  intro n
  induction n with
  | zero =>
    intro rem hs0 hs hlen hinv hok
    have hrem : rem = [] := List.length_eq_zero.mp (Nat.le_zero.mp hlen)
    subst hrem
    rw [parseLoop.eq_def] at hok
    have h := Except.ok.inj hok
    subst h
    exact soiFirstInv_final _ hinv
  | succ n ih =>
    intro rem hs0 hs hlen hinv hok
    rw [parseLoop.eq_def] at hok
    rcases rem with _ | ⟨m0, _ | ⟨m1, rest⟩⟩
    · have h := Except.ok.inj hok
      subst h
      exact soiFirstInv_final _ hinv
    · by_cases hb : m0 = 0xFF
      · simp [hb] at hok
      · simp [hb] at hok
        subst hok
        exact soiFirstInv_final _ hinv
    · by_cases hm0 : m0 = 0xFF
      · subst hm0
        by_cases hm1 : m1 = 0xD9
        · subst hm1
          simp at hok
          rw [← hok]
          exact soiFirstInv_final_eoi _ hinv
        · simp [hm1] at hok
          rcases rest with _ | ⟨l0, _ | ⟨l1, rest2⟩⟩
          · simp at hok
          · simp at hok
          · by_cases hlen2 : 256 * l0 + l1 < 2
            · simp only [hlen2, if_true] at hok
              cases hint : interpretMarker m1 (256 * l0 + l1) rest2 hs0 with
              | error e => rw [hint] at hok; simp at hok
              | ok hs2 =>
                rw [hint] at hok
                obtain ⟨k, v, hk1, hk2, rfl⟩ :=
                  interpretMarker_ok_shape _ _ _ _ _ hint
                exact ih [] _ hs (by simp)
                  (soiFirstInv_dictInsert k v hs0 hk1 hk2 hinv) hok
            · simp only [hlen2, if_false] at hok
              cases hint : interpretMarker m1 (256 * l0 + l1)
                  (rest2.take (256 * l0 + l1 - 2)) hs0 with
              | error e => rw [hint] at hok; simp at hok
              | ok hs2 =>
                rw [hint] at hok
                obtain ⟨k, v, hk1, hk2, rfl⟩ :=
                  interpretMarker_ok_shape _ _ _ _ _ hint
                refine ih (rest2.drop (256 * l0 + l1 - 2)) _ hs ?_
                  (soiFirstInv_dictInsert k v hs0 hk1 hk2 hinv) hok
                have hd : (rest2.drop (256 * l0 + l1 - 2)).length ≤ rest2.length := by
                  simp [List.length_drop]
                simp only [List.length_cons] at hlen
                omega
      · simp [hm0] at hok
        subst hok
        exact soiFirstInv_final _ hinv

/-- C9: every successfully parsed header set has exactly one `SOI` entry,
it is the first entry, and it has at most one `EOI` entry, which, when
present, is the last entry. -/
theorem headerset_soi_first_eoi_last (input : List Nat) (hs : Headers)
    (h : parse_jpeg_headers input = .ok hs) :
    (labelsOf hs).count "SOI" = 1 ∧ (labelsOf hs).head? = some "SOI" ∧
      (labelsOf hs).count "EOI" ≤ 1 ∧
      ("EOI" ∈ labelsOf hs → (labelsOf hs).getLast? = some "EOI") := by
  rw [parse_jpeg_headers] at h
  by_cases hsig : input.take 2 = [0xFF, 0xD8]
  · rw [if_pos hsig] at h
    refine parseLoop_ok_final (input.drop 2).length (input.drop 2) _ hs
      le_rfl ?_ h
    constructor <;> simp [dictInsert, labelsOf, soiInfo]
  · rw [if_neg hsig] at h
    cases h

/-- Witness for `headerset_soi_first_eoi_last` on the minimal valid
stream `FF D8 FF D9`. -/
theorem headerset_soi_first_eoi_last_witness :
    parse_jpeg_headers [0xFF, 0xD8, 0xFF, 0xD9] =
        .ok [("SOI", soiInfo), ("EOI", eoiInfo)] ∧
      ((labelsOf [("SOI", soiInfo), ("EOI", eoiInfo)]).count "SOI" = 1 ∧
        (labelsOf [("SOI", soiInfo), ("EOI", eoiInfo)]).head? = some "SOI" ∧
        (labelsOf [("SOI", soiInfo), ("EOI", eoiInfo)]).count "EOI" ≤ 1 ∧
        ("EOI" ∈ labelsOf [("SOI", soiInfo), ("EOI", eoiInfo)] →
          (labelsOf [("SOI", soiInfo), ("EOI", eoiInfo)]).getLast? =
            some "EOI")) :=
  ⟨by simp [parse_jpeg_headers, parseLoop, dictInsert, soiInfo, eoiInfo],
   headerset_soi_first_eoi_last [0xFF, 0xD8, 0xFF, 0xD9] _
     (by simp [parse_jpeg_headers, parseLoop, dictInsert, soiInfo, eoiInfo])⟩

end JPEG
